import Mathlib

/-!
# Verification of the NVD feed sync / CPE-to-CVE matching core and the
# campaign result streaming service

This development embeds, in Lean 4, the vulnerability-processing core of the
repository (feed synchronisation error aggregation, the CPE-to-CVE matcher,
and the vulnerability reconciler) together with the campaign result
streaming service, and proves the specification's claims about them.

The repository ships the `nvd` package's test suite but not the package
body itself; following the specification, the matcher, reconciler and sync
error aggregation are modelled from the specification's own description
(each such definition carries a doc comment starting `Modelled from the
spec:`).  The campaign streaming service is embedded directly from
`server/service/service_campaigns.go`.
-/

namespace Nvd

/-- Modelled from the spec: `CPEIdentifier` — "parsed CPE 2.3
attribute-value pairs — part, vendor, product, version, update, edition,
language, sw_edition, target_sw, target_hw, other".  The parsing code is
not under `src/`, only its tests are. -/
structure CPEIdentifier where
  part : String
  vendor : String
  product : String
  version : String
  update : String
  edition : String
  language : String
  swEdition : String
  targetSW : String
  targetHW : String
  other : String
deriving DecidableEq, Repr

/-- Split a character list at every occurrence of a separator character
(the counterpart of splitting a string on a one-character separator). -/
def splitOnChar (sep : Char) : List Char → List (List Char)
  | [] => [[]]
  | c :: cs =>
    match splitOnChar sep cs with
    | [] => if c = sep then [[], []] else [[c]]
    | r :: rs => if c = sep then [] :: r :: rs else (c :: r) :: rs

/-- Split a string at every occurrence of a separator character. -/
def splitStr (sep : Char) (s : String) : List String :=
  (splitOnChar sep s.data).map (fun cs => ⟨cs⟩)

/-- Accumulate decimal digits into a number; any non-digit character makes
the whole parse fail. -/
def digitsAux : Nat → List Char → Option Nat
  | acc, [] => some acc
  | acc, c :: cs =>
    if c.isDigit then digitsAux (acc * 10 + (c.toNat - 48)) cs else none

/-- Parse a non-empty all-digit character list as a decimal number. -/
def parseNatChars : List Char → Option Nat
  | [] => none
  | cs => digitsAux 0 cs

/-- Lower-case a single ASCII letter, leaving other characters unchanged. -/
def lowerChar (c : Char) : Char :=
  if 65 ≤ c.toNat ∧ c.toNat ≤ 90 then Char.ofNat (c.toNat + 32) else c

/-- Case folding used by the case-insensitive target_sw comparison. -/
def lowerStr (s : String) : String :=
  ⟨s.data.map lowerChar⟩

/-- Modelled from the spec: parsing a CPE 2.3 string into its
attribute-value pairs.  A CPE 2.3 string has the fixed shape
`cpe:2.3:<part>:<vendor>:<product>:<version>:<update>:<edition>:<language>:<sw_edition>:<target_sw>:<target_hw>:<other>`;
anything else is unparsable (the reconciler skips such items). -/
def parseCPE (s : String) : Option CPEIdentifier :=
  match splitStr ':' s with
  | ["cpe", "2.3", part, vendor, product, version, update, edition,
     language, swEdition, targetSW, targetHW, other] =>
    some { part := part, vendor := vendor, product := product,
           version := version, update := update, edition := edition,
           language := language, swEdition := swEdition,
           targetSW := targetSW, targetHW := targetHW, other := other }
  | _ => none

/-- Modelled from the spec: version strings are compared as dotted numeric
components ("9.0.3" → [9, 0, 3]); a non-numeric component compares as 0. -/
def verNats (s : String) : List Nat :=
  (splitOnChar '.' s.data).map (fun p => (parseNatChars p).getD 0)

/-- Modelled from the spec: lexicographic comparison of dotted numeric
versions, with missing trailing components read as 0 (so "93.0" = "93.0.0"). -/
def cmpVer : List Nat → List Nat → Ordering
  | [], bs => if bs.all (fun b => b == 0) then .eq else .lt
  | a :: as, [] => if a = 0 then cmpVer as [] else .gt
  | a :: as, b :: bs =>
    if a < b then .lt else if b < a then .gt else cmpVer as bs

/-- `a` is strictly below `b` in the dotted numeric version order. -/
def verLt (a b : List Nat) : Bool := cmpVer a b == .lt

/-- `a` is at or below `b` in the dotted numeric version order. -/
def verLe (a b : List Nat) : Bool := cmpVer a b != .gt

/-- One endpoint of a version range: the version string and whether the
bound is inclusive. -/
structure VersionBound where
  v : String
  inclusive : Bool
deriving DecidableEq, Repr

/-- Modelled from the spec: the "closed set of rule kinds" of the version
test — an exact-version rule, a range rule (optional start/end bounds,
each inclusive or exclusive), or an any-version rule. -/
inductive VersionRule where
  | exact (v : String)
  | range (lo : Option VersionBound) (hi : Option VersionBound)
  | any
deriving DecidableEq, Repr

/-- Modelled from the spec: `VulnerabilityRecord`s hold CPE match rules;
"each match rule specifies vendor/product/target_sw plus either an exact
version or a version range (start/end, inclusive/exclusive bounds) and a
'vulnerable' flag". -/
structure MatchRule where
  cve : String
  vendor : String
  product : String
  targetSW : String
  vulnerable : Bool
  version : VersionRule
deriving DecidableEq, Repr

/-- A feed index is the collection of match rules parsed from the feed
files; the spec's grouping by (vendor, product) is a lookup optimisation
with the same matching semantics. -/
abbrev FeedIndex := List MatchRule

/-- Modelled from the spec: the target_sw filter — "a rule's target_sw of
`\"*\"`/empty matches any CPE target_sw; otherwise compare
case-insensitively; the queried CPE's own `\"*\"`/empty target_sw matches
any rule". -/
def targetSWOk (ruleTS cpeTS : String) : Bool :=
  ruleTS == "*" || ruleTS == "" || cpeTS == "*" || cpeTS == "" ||
    lowerStr ruleTS == lowerStr cpeTS

/-- Does a concrete dotted numeric version satisfy an optional lower bound? -/
def aboveLo (cv : List Nat) : Option VersionBound → Bool
  | none => true
  | some b => if b.inclusive then verLe (verNats b.v) cv else verLt (verNats b.v) cv

/-- Does a concrete dotted numeric version satisfy an optional upper bound? -/
def belowHi (cv : List Nat) : Option VersionBound → Bool
  | none => true
  | some b => if b.inclusive then verLe cv (verNats b.v) else verLt cv (verNats b.v)

/-- Modelled from the spec: the version test of the matcher.  A CPE version
of `"-"` (unpinned) matches every rule regardless of its version or range;
an empty or `"*"` CPE version matches only an any-version rule ("ambiguous
inputs never produce false positives"); a concrete version matches an
exact-version rule naming it, an any-version rule, or a range rule whose
bounds enclose it. -/
def versionMatches (cpeVer : String) (vr : VersionRule) : Bool :=
  if cpeVer == "-" then true
  else if cpeVer == "" || cpeVer == "*" then
    match vr with
    | .any => true
    | _ => false
  else
    match vr with
    | .exact v => v == cpeVer
    | .any => true
    | .range lo hi => aboveLo (verNats cpeVer) lo && belowHi (verNats cpeVer) hi

/-- Modelled from the spec: whether one match rule covers one CPE — the
vendor/product lookup, the target_sw filter, the non-vulnerable carve-out
("a rule whose 'vulnerable' flag is false is excluded even if the version
falls inside its range"), and the version test. -/
def matchRule (r : MatchRule) (c : CPEIdentifier) : Bool :=
  r.vendor == c.vendor && r.product == c.product &&
    targetSWOk r.targetSW c.targetSW && r.vulnerable &&
    versionMatches c.version r.version

/-- Modelled from the spec: `match(index, cpe) -> set of CVE` — "the union
of matched rules' CVE IDs, deduplicated". -/
def matchCVEs (idx : FeedIndex) (c : CPEIdentifier) : List String :=
  ((idx.filter (fun r => matchRule r c)).map (fun r => r.cve)).dedup

/-- Matching applied to a raw CPE string: parse then match; an unparsable
CPE yields no CVEs. -/
def matchCPEString (idx : FeedIndex) (s : String) : List String :=
  match parseCPE s with
  | none => []
  | some c => matchCVEs idx c

/-! ## The modelled reference feed snapshot

The reference NVD feed snapshot used in conformance testing is downloaded
from the network by the tests and is not part of the repository.  The
rules below are modelled from the spec's statements about that snapshot:
the exact result sets for the frozen products (1password 3.9.9,
pip 9.0.3), the per-product exclusion sets of the "continues to update"
products (icloud), and the cardinality of the firefox product line. -/

/-- Modelled from the spec: the snapshot's rule for `CVE-2012-6369`, the
single CVE of the frozen product 1password 3.9.9 (a macOS product line
with an upper-bounded version range). -/
def onepasswordRules : FeedIndex :=
  [{ cve := "CVE-2012-6369", vendor := "1password", product := "1password",
     targetSW := "macos", vulnerable := true,
     version := .range none (some ⟨"4.0", false⟩) }]

/-- Modelled from the spec: the snapshot's rules for the `pypa` vendor.
The two literal CVEs of the frozen product pip 9.0.3 are upper-bounded
ranges enclosing 9.0.3; the other rules (a different pypa product and a
pip range starting after 9.0.3) must not contribute to that result. -/
def pipRules : FeedIndex :=
  [{ cve := "CVE-2019-20916", vendor := "pypa", product := "pip",
     targetSW := "*", vulnerable := true,
     version := .range none (some ⟨"19.2", false⟩) },
   { cve := "CVE-2021-3572", vendor := "pypa", product := "pip",
     targetSW := "*", vulnerable := true,
     version := .range none (some ⟨"21.1", false⟩) },
   { cve := "CVE-2022-40897", vendor := "pypa", product := "setuptools",
     targetSW := "*", vulnerable := true,
     version := .range none (some ⟨"65.5.1", false⟩) },
   { cve := "CVE-2023-5752", vendor := "pypa", product := "pip",
     targetSW := "*", vulnerable := true,
     version := .range (some ⟨"19.0", true⟩) (some ⟨"23.3", false⟩) }]

/-- The CVEs configured as excluded for `apple icloud` in the test
configuration (`cvetests` in the repository's test file). -/
def icloudExcludedCVEs : List String :=
  ["CVE-2017-13797", "CVE-2017-2383", "CVE-2017-2366", "CVE-2016-4613",
   "CVE-2016-4692", "CVE-2016-4743", "CVE-2016-7578", "CVE-2016-7583",
   "CVE-2016-7586", "CVE-2016-7587", "CVE-2016-7589", "CVE-2016-7592",
   "CVE-2016-7598", "CVE-2016-7599", "CVE-2016-7610", "CVE-2016-7611",
   "CVE-2016-7614", "CVE-2016-7632", "CVE-2016-7635", "CVE-2016-7639",
   "CVE-2016-7640", "CVE-2016-7641", "CVE-2016-7642", "CVE-2016-7645",
   "CVE-2016-7646", "CVE-2016-7648", "CVE-2016-7649", "CVE-2016-7652",
   "CVE-2016-7654", "CVE-2016-7656", "CVE-2017-2383"]

/-- Modelled from the spec: the snapshot's rules for `apple icloud`.  The
spec leaves the mechanism behind the exclusions open but notes
target_hw/target_sw mismatch as one candidate; the snapshot is modelled
accordingly — the excluded CVEs apply to the Windows product line only,
while the macOS line carries its own CVEs. -/
def icloudRules : FeedIndex :=
  (icloudExcludedCVEs.map (fun cve =>
    { cve := cve, vendor := "apple", product := "icloud",
      targetSW := "windows", vulnerable := true,
      version := .range none none })) ++
  [{ cve := "CVE-2021-30946", vendor := "apple", product := "icloud",
     targetSW := "macos", vulnerable := true,
     version := .range none (some ⟨"13.1", false⟩) },
   { cve := "CVE-2022-22579", vendor := "apple", product := "icloud",
     targetSW := "macos", vulnerable := true,
     version := .range none (some ⟨"13.1", false⟩) }]

/-- The per-CPE negative (exclusion) lists configured in the repository's
test table `cvetests`: the only entry with a configured `excludedCVEs`
set is the apple icloud CPE. -/
def negativeConfig : List (String × List String) :=
  [("cpe:2.3:a:apple:icloud:1.0:*:*:*:*:macos:*:*", icloudExcludedCVEs)]

/-- The CVE identifier of the i-th modelled firefox rule.  The identifiers
are kept trivially pairwise distinct so that the snapshot's cardinality
facts do not depend on decimal-printing lemmas. -/
def ffCVEName (i : Nat) : String :=
  "CVE-FF-" ++ ⟨List.replicate i 'x'⟩

/-- Modelled from the spec: the snapshot's rule set for `mozilla firefox`.
The spec fixes its cardinality ("well over 280 CVEs") but not its
contents, so it is modelled as 300 distinct vulnerable rules, each with
its own upper-bounded version range. -/
def firefoxSnapshotRules : FeedIndex :=
  (List.range 300).map (fun i =>
    { cve := ffCVEName i, vendor := "mozilla", product := "firefox",
      targetSW := "*", vulnerable := true,
      version := .range none (some ⟨toString (40 + i) ++ ".0", false⟩) })

/-- Modelled from the spec: the reference feed snapshot used in
conformance testing, assembled from the per-product rule sets above. -/
def referenceFeed : FeedIndex :=
  onepasswordRules ++ pipRules ++ icloudRules ++ firefoxSnapshotRules

/-- The parsed form of `cpe:2.3:a:mozilla:firefox:-:*:*:*:*:*:*:*`, the
unpinned firefox inventory item of the recent-vulnerabilities test. -/
def ffDashCPE : CPEIdentifier :=
  { part := "a", vendor := "mozilla", product := "firefox", version := "-",
    update := "*", edition := "*", language := "*", swEdition := "*",
    targetSW := "*", targetHW := "*", other := "*" }

/-- A match rule whose "vulnerable" flag is false, for the same
vendor/product/target_sw as `ffDashCPE` and with a version range: feed
configurations carry such non-vulnerable context entries, and the
matcher must never let them contribute a CVE. -/
def ffNonVulnRule : MatchRule :=
  { cve := "CVE-2012-0467", vendor := "mozilla", product := "firefox",
    targetSW := "*", vulnerable := false,
    version := .range none (some ⟨"12.0", false⟩) }

/-! ## The vulnerability reconciler

The reconciler (`TranslateCPEToCVE` in the tests) is not under `src/`
either; it is modelled from the spec's contract
`reconcile(ctx, datastore, index, onlyRecent, retireAfter)`.  The
datastore is modelled as the set of persisted `SoftwareVulnerability`
rows (source is always NVD here; the last-seen marker only matters to the
retirement step, which the model records as an emitted datastore
operation).  Every datastore operation the run issues is recorded in an
operation trace, in order. -/

/-- `SoftwareCPE` — one row per installed item: software ID plus CPE
string (read-only input supplied by the inventory collector). -/
structure SoftwareCPE where
  softwareID : Nat
  cpe : String
deriving DecidableEq, Repr

/-- The persisted `SoftwareVulnerability` rows for source NVD, as
(software ID, CVE) pairs — unique per pair by the upsert below. -/
abbrev Store := List (Nat × String)

/-- One datastore operation issued by a reconcile run, in trace order. -/
inductive DSOp where
  | listCPEs
  | insertVuln (softwareID : Nat) (cve : String) (isNew : Bool)
  | deleteOutOfDate (source : String) (retireAfter : Nat)
deriving DecidableEq, Repr

/-- Is this trace entry the retirement operation? -/
def DSOp.isDelete : DSOp → Bool
  | .deleteOutOfDate _ _ => true
  | _ => false

/-- Modelled from the spec: `InsertSoftwareVulnerability` — an upsert into
the unique-per-(software ID, CVE, source) table that reports whether the
row was newly created versus already present. -/
def upsert (st : Store) (sid : Nat) (cve : String) : Store × Bool :=
  if (sid, cve) ∈ st then (st, false) else ((sid, cve) :: st, true)

/-- What one reconcile run produced: the datastore rows afterwards, the
accumulated recent results (affected software IDs, one entry per newly
created row), and the trace of datastore operations issued. -/
structure RunResult where
  store : Store
  recent : List Nat
  ops : List DSOp
deriving Repr

/-- Modelled from the spec: step 3 of the reconciler — upsert one
software item's matched CVEs one by one; each newly created row appends
the software ID to the recent accumulator when `onlyRecent` is set. -/
def upsertCVEs (sid : Nat) (onlyRecent : Bool) (st : Store) :
    List String → Store × List Nat × List DSOp
  | [] => (st, [], [])
  | cve :: rest =>
    let u := upsert st sid cve
    let r := upsertCVEs sid onlyRecent u.1 rest
    (r.1, (if u.2 && onlyRecent then [sid] else []) ++ r.2.1,
      .insertVuln sid cve u.2 :: r.2.2)

/-- The CVEs the matcher yields for one inventory row; an unparsable CPE
string is skipped (with a logged warning in the real system). -/
def cvesForItem (idx : FeedIndex) (item : SoftwareCPE) : List String :=
  match parseCPE item.cpe with
  | none => []
  | some c => matchCVEs idx c

/-- Modelled from the spec: step 2–3 of the reconciler over the whole
inventory — parse, match and upsert each software item in turn. -/
def runItems (idx : FeedIndex) (onlyRecent : Bool) (st : Store) :
    List SoftwareCPE → Store × List Nat × List DSOp
  | [] => (st, [], [])
  | item :: rest =>
    let r1 := upsertCVEs item.softwareID onlyRecent st (cvesForItem idx item)
    let r2 := runItems idx onlyRecent r1.1 rest
    (r2.1, r1.2.1 ++ r2.2.1, r1.2.2 ++ r2.2.2)

/-- Modelled from the spec:
`reconcile(ctx, datastore, index, onlyRecent, retireAfter)` — list the
inventory, process every item, then invoke the retirement operation for
source NVD exactly once, and return the accumulated recent results. -/
def reconcile (idx : FeedIndex) (inv : List SoftwareCPE) (onlyRecent : Bool)
    (retireAfter : Nat) (st : Store) : RunResult :=
  let r := runItems idx onlyRecent st inv
  { store := r.1, recent := r.2.1,
    ops := .listCPEs :: r.2.2 ++ [.deleteOutOfDate "NVD" retireAfter] }

/-! ## Feed synchronisation error aggregation

The feed synchroniser (`DownloadNVDCVEFeed`) is likewise not under
`src/`; its failure reporting is modelled from the spec's §4.1 and the
format the test `TestSyncsCVEFromURL` asserts. -/

/-- Modelled from the spec: the failure line recorded when an archive's
downloaded byte count disagrees with the size its `.meta` descriptor
declared — `unexpected size for "<url>" (<http-status>): want <X>,
have <Y>`. -/
def sizeMismatchErr (url status : String) (want got : Nat) : String :=
  "unexpected size for \"" ++ url ++ "\" (" ++ status ++ "): want " ++
    toString want ++ ", have " ++ toString got

/-- Modelled from the spec: per-year sync failures are collected and
returned together as one aggregated error whose message states the count
("N synchronisation error(s):") followed by one indented line per
failure; no failures means no error. -/
def aggregateSyncErrors (errs : List String) : Option String :=
  if errs.isEmpty then none
  else some (toString errs.length ++ " synchronisation error" ++
    (if errs.length == 1 then "" else "s") ++ ":" ++
    String.join (errs.map (fun e => "\n\t" ++ e)))

end Nvd

namespace Campaigns

/-! ## The campaign result streaming service

Embedded from `server/service/service_campaigns.go`.  The service reads
query results from a channel and pushes them, interleaved with totals and
status messages, over a websocket connection.  The embedding drives the
read loop with an explicit list of events (one per channel receive or
ticker firing) and records everything written to the connection, plus the
opening of the campaign reader, as an action trace.  Connection writes
are modelled as succeeding; a write failure in the source only ends the
loop early and performs no further state change. -/

/-- `campaignStatusPending` from the source. -/
def campaignStatusPending : String := "pending"

/-- `campaignStatusFinished` from the source. -/
def campaignStatusFinished : String := "finished"

/-- `authz.ForbiddenErrorMessage`, an opaque message constant imported
from the authorization package (an external collaborator); only its
identity matters here. -/
def forbiddenErrorMessage : String := "forbidden"

/-- `targetTotals` from the source. -/
structure TargetTotals where
  total : Nat
  online : Nat
  offline : Nat
  missingInAction : Nat
deriving DecidableEq, Repr

/-- `campaignStatus` from the source. -/
structure CampaignStatus where
  expectedResults : Nat
  actualResults : Nat
  status : String
deriving DecidableEq, Repr

/-- The viewer attached to the request context (only the user ID is
consulted). -/
structure Viewer where
  userID : Nat
deriving DecidableEq, Repr

/-- The campaign row loaded from the datastore (ID, initiating user,
query). -/
structure Campaign where
  id : Nat
  userID : Nat
  queryID : Nat
deriving DecidableEq, Repr

/-- The metrics `CountHostsInTargets` reports. -/
structure Metrics where
  totalHosts : Nat
  onlineHosts : Nat
  offlineHosts : Nat
  missingInActionHosts : Nat
deriving DecidableEq, Repr

/-- One observable action of a streaming session: a connection write or
the opening of the campaign reader. -/
inductive StreamAct where
  | writeError (msg : String)
  | writeTotals (t : TargetTotals)
  | writeStatus (s : CampaignStatus)
  | writeResult
  | openReader
deriving DecidableEq, Repr

/-- The mutable state of the streaming loop: `status`, `lastStatus` and
`lastTotals` from the source. -/
structure StreamState where
  status : CampaignStatus
  lastStatus : CampaignStatus
  lastTotals : TargetTotals
deriving DecidableEq, Repr

/-- The state just before the loop: status pending with zero counts, and
zero totals. -/
def initState : StreamState :=
  { status := { expectedResults := 0, actualResults := 0,
                status := campaignStatusPending },
    lastStatus := { expectedResults := 0, actualResults := 0,
                    status := campaignStatusPending },
    lastTotals := { total := 0, online := 0, offline := 0,
                    missingInAction := 0 } }

/-- `updateStatus` from the source: fetch target metrics (an error is
written and aborts the stream), write totals when they changed, set the
expected count to the online-host count, mark the status finished when
the actual count has reached the expected count, and write the status
when it changed.  Returns the new state, the writes, and whether the
stream continues. -/
def updateStatus (m : Except String Metrics) (st : StreamState) :
    StreamState × List StreamAct × Bool :=
  match m with
  | .error e =>
    (st, [.writeError ("error retrieving target counts: " ++ e)], false)
  | .ok mt =>
    let totals : TargetTotals :=
      { total := mt.totalHosts, online := mt.onlineHosts,
        offline := mt.offlineHosts,
        missingInAction := mt.missingInActionHosts }
    let st1 :=
      if st.lastTotals ≠ totals then { st with lastTotals := totals } else st
    let acts1 : List StreamAct :=
      if st.lastTotals ≠ totals then [StreamAct.writeTotals totals] else []
    let status1 := { st1.status with expectedResults := totals.online }
    let status2 :=
      if status1.actualResults ≥ status1.expectedResults then
        { status1 with status := campaignStatusFinished }
      else status1
    let st2 := { st1 with status := status2 }
    let st3 :=
      if st2.lastStatus ≠ st2.status then
        { st2 with lastStatus := st2.status }
      else st2
    let acts2 : List StreamAct :=
      if st2.lastStatus ≠ st2.status then [StreamAct.writeStatus st2.status]
      else []
    (st3, acts1 ++ acts2, true)

/-- One iteration's stimulus: a query result arriving on the read
channel, a pubsub error arriving on it, or the ticker firing (carrying
whether the client closed the session, and the metrics the status update
would fetch). -/
inductive StreamEvent where
  | result
  | pubsubError (msg : String)
  | tick (sessionClosed : Bool) (metrics : Except String Metrics)
deriving Repr

/-- One iteration of the source's select loop. -/
def stepEvent (st : StreamState) : StreamEvent → StreamState × List StreamAct × Bool
  | .result =>
    ({ st with status := { st.status with
        actualResults := st.status.actualResults + 1 } },
      [StreamAct.writeResult], true)
  | .pubsubError e =>
    (st, [.writeError ("received pubsub error: " ++ e)], true)
  | .tick closed m =>
    if closed then (st, [], false) else updateStatus m st

/-- The source's streaming loop over a finite stimulus list, stopping
early when an iteration ends the stream. -/
def runEvents (st : StreamState) : List StreamEvent → StreamState × List StreamAct
  | [] => (st, [])
  | e :: rest =>
    let s1 := stepEvent st e
    if s1.2.2 then
      let s2 := runEvents s1.1 rest
      (s2.1, s1.2.1 ++ s2.2)
    else (s1.1, s1.2.1)

/-- The environment one invocation runs against: the authorization
outcome, the context viewer, the campaign lookup, the campaign reader
and target-ID lookups, the metrics of the initial status update, and the
loop stimuli. -/
structure StreamEnv where
  authzOk : Bool
  viewer : Option Viewer
  campaignID : Nat
  campaign : Except String Campaign
  readerOk : Except String Unit
  targetsOk : Except String Unit
  initialMetrics : Except String Metrics
  events : List StreamEvent

/-- `StreamCampaignResults` from the source: the guard sequence
(authorization, viewer, campaign lookup, initiator check), opening the
campaign reader, the target lookup, the initial status update, then the
streaming loop.  Returns the action trace and, when the loop was
reached, the final loop state. -/
def StreamCampaignResults (env : StreamEnv) : List StreamAct × Option StreamState :=
  if !env.authzOk then ([.writeError forbiddenErrorMessage], none)
  else
    match env.viewer with
    | none => ([.writeError forbiddenErrorMessage], none)
    | some vc =>
      match env.campaign with
      | .error _ =>
        ([.writeError ("cannot find campaign for ID " ++ toString env.campaignID)], none)
      | .ok campaign =>
        if campaign.userID ≠ vc.userID then
          ([.writeError forbiddenErrorMessage], none)
        else
          match env.readerOk with
          | .error e =>
            ([.writeError ("error getting campaign reader: " ++ e)], none)
          | .ok _ =>
            match env.targetsOk with
            | .error e =>
              ([.openReader,
                .writeError ("error retrieving campaign targets: " ++ e)], none)
            | .ok _ =>
              let u := updateStatus env.initialMetrics initState
              if u.2.2 then
                let r := runEvents u.1 env.events
                (.openReader :: u.2.1 ++ r.2, some r.1)
              else (.openReader :: u.2.1, some u.1)

/-- A concrete environment whose campaign was initiated by user 2 while
the context viewer is user 1. -/
def mismatchEnv : StreamEnv :=
  { authzOk := true, viewer := some ⟨1⟩, campaignID := 7,
    campaign := .ok ⟨7, 2, 3⟩, readerOk := .ok (), targetsOk := .ok (),
    initialMetrics := .ok ⟨0, 0, 0, 0⟩, events := [] }

end Campaigns

/-! # Theorems -/

namespace Nvd

/-- The unpinned version `"-"` passes the version test against every
kind of version rule. -/
theorem versionMatches_dash (vr : VersionRule) : versionMatches "-" vr = true := rfl

/-- Membership in a match result, unfolded to the underlying rules. -/
theorem mem_matchCVEs (idx : FeedIndex) (c : CPEIdentifier) (cve : String) :
    cve ∈ matchCVEs idx c ↔
      ∃ r, (r ∈ idx ∧ matchRule r c = true) ∧ r.cve = cve := by
  simp [matchCVEs, List.mem_dedup, List.mem_map, List.mem_filter]

/-- Claim C1: for the CPE with the concrete version 9.0.3 of vendor
pypa, product pip, `match` against the (modelled) reference feed returns
exactly the set consisting of CVE-2019-20916 and CVE-2021-3572. -/
theorem pip_9_0_3_exact_cve_set :
    matchCPEString referenceFeed "cpe:2.3:a:pypa:pip:9.0.3:*:*:*:*:python:*:*"
      = ["CVE-2019-20916", "CVE-2021-3572"] := by decide

/-- Claim C3: per-year sync failures are aggregated into one error whose
message states the failure count ("N synchronisation error(s):"),
followed by one indented line per failure; a size mismatch renders as
`unexpected size for "<url>" (<http-status>): want <X>, have <Y>`, and
the 2002-feed scenario produces exactly the message the conformance test
expects. -/
theorem sync_errors_aggregated :
    (∀ (e : String) (es : List String),
      aggregateSyncErrors (e :: es) =
        some (toString (e :: es).length ++ " synchronisation error" ++
          (if (e :: es).length == 1 then "" else "s") ++ ":" ++
          String.join ((e :: es).map (fun x => "\n\t" ++ x)))) ∧
    (∀ errs : List String,
      (errs.map (fun x => "\n\t" ++ x)).length = errs.length) ∧
    (∀ (url status : String) (want got : Nat),
      sizeMismatchErr url status want got =
        "unexpected size for \"" ++ url ++ "\" (" ++ status ++ "): want " ++
          toString want ++ ", have " ++ toString got) ∧
    aggregateSyncErrors
        [sizeMismatchErr
          "https://nvd.nist.gov/feeds/json/cve/1.1/nvdcve-1.1-2002.json.gz"
          "200 OK" 1453293 0] =
      some ("1 synchronisation error:\n\tunexpected size for " ++
        "\"https://nvd.nist.gov/feeds/json/cve/1.1/nvdcve-1.1-2002.json.gz\"" ++
        " (200 OK): want 1453293, have 0") := by
  refine ⟨fun e es => rfl, fun errs => by simp, fun url status want got => rfl, ?_⟩
  decide

/-- Claim C6: target_sw filtering treats `"*"` and empty as wildcards on
both sides and otherwise compares case-insensitively, and the two
1password 3.9.9 CPEs (target_sw macos and target_sw `*`) both match
exactly CVE-2012-6369 against the (modelled) reference feed. -/
theorem target_sw_wildcard_filter :
    (matchCPEString referenceFeed
        "cpe:2.3:a:1password:1password:3.9.9:*:*:*:*:macos:*:*"
      = ["CVE-2012-6369"]) ∧
    (matchCPEString referenceFeed
        "cpe:2.3:a:1password:1password:3.9.9:*:*:*:*:*:*:*"
      = ["CVE-2012-6369"]) ∧
    (∀ ts, targetSWOk "*" ts = true ∧ targetSWOk "" ts = true ∧
      targetSWOk ts "*" = true ∧ targetSWOk ts "" = true) ∧
    (∀ a b, a ≠ "*" → a ≠ "" → b ≠ "*" → b ≠ "" →
      targetSWOk a b = (lowerStr a == lowerStr b)) := by
  refine ⟨by decide, by decide, ?_, ?_⟩
  · intro ts
    refine ⟨rfl, rfl, ?_, ?_⟩ <;> simp [targetSWOk]
  · intro a b h1 h2 h3 h4
    have e1 : (a == "*") = false := beq_eq_false_iff_ne.mpr h1
    have e2 : (a == "") = false := beq_eq_false_iff_ne.mpr h2
    have e3 : (b == "*") = false := beq_eq_false_iff_ne.mpr h3
    have e4 : (b == "") = false := beq_eq_false_iff_ne.mpr h4
    simp [targetSWOk, e1, e2, e3, e4]

/-- Witness for claim C6: the case-insensitive comparison branch at a
concrete non-wildcard pair. -/
theorem target_sw_wildcard_filter_witness :
    targetSWOk "MACOS" "macos" = (lowerStr "MACOS" == lowerStr "macos") :=
  target_sw_wildcard_filter.2.2.2 "MACOS" "macos"
    (by decide) (by decide) (by decide) (by decide)

/-- Claim C7: no CVE of a CPE's configured negative list is ever
returned for that CPE; in particular none of the configured icloud
exclusions appear in the icloud 1.0 result. -/
theorem excluded_cves_never_returned :
    ∀ p ∈ negativeConfig, ∀ cve ∈ p.2,
      cve ∉ matchCPEString referenceFeed p.1 := by
  set_option maxRecDepth 100000 in decide

/-- Witness for claim C7 at the first configured exclusion. -/
theorem excluded_cves_never_returned_witness :
    "CVE-2017-13797" ∉ matchCPEString referenceFeed
      "cpe:2.3:a:apple:icloud:1.0:*:*:*:*:macos:*:*" :=
  excluded_cves_never_returned
    ("cpe:2.3:a:apple:icloud:1.0:*:*:*:*:macos:*:*", icloudExcludedCVEs)
    (by decide) "CVE-2017-13797" (by decide)

/-- Claim C8: a match rule whose "vulnerable" flag is false contributes
no CVE to any match result — adding such a rule to any index leaves
every CPE's result unchanged, even when the CPE's version falls inside
the rule's range. -/
theorem non_vulnerable_rule_contributes_nothing
    (idx : FeedIndex) (c : CPEIdentifier) (r : MatchRule)
    (h : r.vulnerable = false) :
    matchCVEs (r :: idx) c = matchCVEs idx c := by
  have hm : matchRule r c = false := by
    simp [matchRule, h]
  simp [matchCVEs, List.filter_cons, hm]

/-- Witness for claim C8: the non-vulnerable firefox range rule adds
nothing for a CPE whose version (unpinned) its range would otherwise
cover. -/
theorem non_vulnerable_rule_contributes_nothing_witness :
    matchCVEs [ffNonVulnRule] ffDashCPE = matchCVEs [] ffDashCPE :=
  non_vulnerable_rule_contributes_nothing [] ffDashCPE ffNonVulnRule (by decide)

end Nvd

namespace Nvd

/-- The modelled firefox CVE identifiers are pairwise distinct. -/
theorem ffCVEName_injective : Function.Injective ffCVEName := by
  intro i j h
  have h2 := congrArg (fun s => s.data.length) h
  simp only [ffCVEName, String.data_append, List.length_append,
    List.length_replicate] at h2
  omega

/-- Every modelled firefox snapshot rule covers the unpinned firefox CPE. -/
theorem firefox_rules_all_match :
    ∀ r ∈ firefoxSnapshotRules, matchRule r ffDashCPE = true := by
  intro r hr
  obtain ⟨i, -, rfl⟩ := List.mem_map.mp hr
  rfl

/-- The unpinned firefox CPE matches exactly the CVEs of the modelled
firefox snapshot rules. -/
theorem matchCVEs_referenceFeed_ffDash :
    matchCVEs referenceFeed ffDashCPE
      = firefoxSnapshotRules.map (fun r => r.cve) := by
  have hfilter : referenceFeed.filter (fun r => matchRule r ffDashCPE)
      = firefoxSnapshotRules := by
    have h1 : onepasswordRules.filter (fun r => matchRule r ffDashCPE) = [] := by
      decide
    have h2 : pipRules.filter (fun r => matchRule r ffDashCPE) = [] := by decide
    have h3 : icloudRules.filter (fun r => matchRule r ffDashCPE) = [] := by
      decide
    have h4 : firefoxSnapshotRules.filter (fun r => matchRule r ffDashCPE)
        = firefoxSnapshotRules := List.filter_eq_self.mpr firefox_rules_all_match
    simp [referenceFeed, List.filter_append, h1, h2, h3, h4]
  have hnodup : (firefoxSnapshotRules.map (fun r => r.cve)).Nodup := by
    have hmap : firefoxSnapshotRules.map (fun r => r.cve)
        = (List.range 300).map ffCVEName := by
      simp [firefoxSnapshotRules, List.map_map]
    rw [hmap]
    exact (List.nodup_range 300).map ffCVEName_injective
  unfold matchCVEs
  rw [hfilter, List.dedup_eq_self.mpr hnodup]

/-- For an unpinned (`"-"`) CPE, the match result consists of precisely
the CVEs of the vulnerable rules for the matching
vendor/product/target_sw, independent of the rules' version or range
bounds. -/
theorem unpinned_universal (idx : FeedIndex) (c : CPEIdentifier)
    (h : c.version = "-") (cve : String) :
    cve ∈ matchCVEs idx c ↔
      ∃ r, r ∈ idx ∧ r.cve = cve ∧ r.vulnerable = true ∧
        (r.vendor == c.vendor && r.product == c.product &&
          targetSWOk r.targetSW c.targetSW) = true := by
  rw [mem_matchCVEs]
  constructor
  · rintro ⟨r, ⟨hr, hm⟩, hc⟩
    refine ⟨r, hr, hc, ?_, ?_⟩
    · simp only [matchRule, h, versionMatches_dash, Bool.and_true,
        Bool.and_eq_true] at hm
      exact hm.2
    · simp only [matchRule, h, versionMatches_dash, Bool.and_true,
        Bool.and_eq_true] at hm
      simp [Bool.and_eq_true, hm.1]
  · rintro ⟨r, hr, hc, hv, hs⟩
    refine ⟨r, ⟨hr, ?_⟩, hc⟩
    simp only [matchRule, h, versionMatches_dash, Bool.and_true]
    simp only [Bool.and_eq_true] at hs ⊢
    exact ⟨hs, hv⟩

/-- Counterexample to claim C2 as stated: a non-vulnerable rule for the
matching vendor/product/target_sw whose CVE is not returned for an
unpinned CPE, so "every rule for the matching vendor/product/target_sw"
over-claims — the non-vulnerable carve-out still applies. -/
theorem unpinned_every_rule_counterexample :
    ffDashCPE.version = "-" ∧
    (ffNonVulnRule.vendor == ffDashCPE.vendor &&
      ffNonVulnRule.product == ffDashCPE.product &&
      targetSWOk ffNonVulnRule.targetSW ffDashCPE.targetSW) = true ∧
    ffNonVulnRule.cve ∉ matchCVEs [ffNonVulnRule] ffDashCPE := by decide

/-- Claim C2 (amended): for every CPE whose version is `"-"`, match
returns exactly the CVEs of every *vulnerable* rule for the matching
vendor/product/target_sw, regardless of the rules' version or range
bounds; in particular the unpinned firefox CPE parses to `ffDashCPE` and
matches well over 280 CVEs of the (modelled) reference feed snapshot. -/
theorem unpinned_matches_every_vulnerable_rule :
    (∀ (idx : FeedIndex) (c : CPEIdentifier), c.version = "-" → ∀ cve,
      (cve ∈ matchCVEs idx c ↔
        ∃ r, r ∈ idx ∧ r.cve = cve ∧ r.vulnerable = true ∧
          (r.vendor == c.vendor && r.product == c.product &&
            targetSWOk r.targetSW c.targetSW) = true)) ∧
    parseCPE "cpe:2.3:a:mozilla:firefox:-:*:*:*:*:*:*:*" = some ffDashCPE ∧
    280 < (matchCVEs referenceFeed ffDashCPE).length := by
  refine ⟨unpinned_universal, by decide, ?_⟩
  rw [matchCVEs_referenceFeed_ffDash]
  simp [firefoxSnapshotRules]

/-- Witness for claim C2 at the reference feed, the unpinned firefox CPE
and a concrete CVE. -/
theorem unpinned_matches_every_vulnerable_rule_witness :
    "CVE-2012-6369" ∈ matchCVEs referenceFeed ffDashCPE ↔
      ∃ r, r ∈ referenceFeed ∧ r.cve = "CVE-2012-6369" ∧ r.vulnerable = true ∧
        (r.vendor == ffDashCPE.vendor && r.product == ffDashCPE.product &&
          targetSWOk r.targetSW ffDashCPE.targetSW) = true :=
  unpinned_matches_every_vulnerable_rule.1 referenceFeed ffDashCPE rfl
    "CVE-2012-6369"

end Nvd

namespace Nvd

/-- An upsert leaves the touched pair present in the store. -/
theorem upsert_mem_self (st : Store) (sid : Nat) (cve : String) :
    (sid, cve) ∈ (upsert st sid cve).1 := by
  unfold upsert
  split
  · assumption
  · exact List.mem_cons_self _ _

/-- An upsert never removes rows. -/
theorem upsert_mono (st : Store) (sid : Nat) (cve : String) (p : Nat × String)
    (hp : p ∈ st) : p ∈ (upsert st sid cve).1 := by
  unfold upsert
  split
  · exact hp
  · exact List.mem_cons_of_mem _ hp

/-- Upserting an already-present row reports it as not new and leaves the
store unchanged. -/
theorem upsert_of_mem (st : Store) (sid : Nat) (cve : String)
    (h : (sid, cve) ∈ st) : upsert st sid cve = (st, false) := by
  unfold upsert
  rw [if_pos h]

/-- Processing one item's CVE list never removes rows. -/
theorem upsertCVEs_store_mono (sid : Nat) (b : Bool) (cves : List String) :
    ∀ (st : Store) (p : Nat × String), p ∈ st →
      p ∈ (upsertCVEs sid b st cves).1 := by
  induction cves with
  | nil => intro st p hp; simpa [upsertCVEs] using hp
  | cons cve rest ih =>
    intro st p hp
    simp only [upsertCVEs]
    exact ih _ _ (upsert_mono st sid cve p hp)

/-- After processing one item's CVE list, every listed pair is present. -/
theorem upsertCVEs_covers (sid : Nat) (b : Bool) (cves : List String) :
    ∀ (st : Store) (cve : String), cve ∈ cves →
      (sid, cve) ∈ (upsertCVEs sid b st cves).1 := by
  induction cves with
  | nil => intro st cve h; cases h
  | cons c rest ih =>
    intro st cve h
    simp only [upsertCVEs]
    rcases List.mem_cons.mp h with h | h
    · subst h
      exact upsertCVEs_store_mono sid b rest _ _ (upsert_mem_self st sid cve)
    · exact ih _ _ h

/-- When every pair of one item's CVE list is already present, processing
it changes nothing and reports nothing recent. -/
theorem upsertCVEs_stable (sid : Nat) (b : Bool) (cves : List String) :
    ∀ st : Store, (∀ cve ∈ cves, (sid, cve) ∈ st) →
      (upsertCVEs sid b st cves).1 = st ∧ (upsertCVEs sid b st cves).2.1 = [] := by
  induction cves with
  | nil => intro st _; exact ⟨rfl, rfl⟩
  | cons c rest ih =>
    intro st h
    have hc : (sid, c) ∈ st := h c (List.mem_cons_self _ _)
    have hrest : ∀ cve ∈ rest, (sid, cve) ∈ st :=
      fun cve hcve => h cve (List.mem_cons_of_mem _ hcve)
    simp only [upsertCVEs, upsert_of_mem st sid c hc]
    have := ih st hrest
    simp [this.1, this.2]

/-- A reconcile pass never removes rows. -/
theorem runItems_store_mono (idx : FeedIndex) (b : Bool) (inv : List SoftwareCPE) :
    ∀ (st : Store) (p : Nat × String), p ∈ st →
      p ∈ (runItems idx b st inv).1 := by
  induction inv with
  | nil => intro st p hp; simpa [runItems] using hp
  | cons item rest ih =>
    intro st p hp
    simp only [runItems]
    exact ih _ _ (upsertCVEs_store_mono _ _ _ _ _ hp)

/-- After a reconcile pass, every matched (software ID, CVE) pair of the
inventory is present in the store. -/
theorem runItems_covers (idx : FeedIndex) (b : Bool) (inv : List SoftwareCPE) :
    ∀ (st : Store) (item : SoftwareCPE) (cve : String), item ∈ inv →
      cve ∈ cvesForItem idx item →
      (item.softwareID, cve) ∈ (runItems idx b st inv).1 := by
  induction inv with
  | nil => intro st item cve h _; cases h
  | cons i rest ih =>
    intro st item cve h hc
    simp only [runItems]
    rcases List.mem_cons.mp h with h | h
    · subst h
      exact runItems_store_mono idx b rest _ _
        (upsertCVEs_covers _ _ _ _ _ hc)
    · exact ih _ _ _ h hc

/-- When every matched pair is already present, a reconcile pass changes
nothing and reports nothing recent. -/
theorem runItems_stable (idx : FeedIndex) (b : Bool) (inv : List SoftwareCPE) :
    ∀ st : Store,
      (∀ item ∈ inv, ∀ cve ∈ cvesForItem idx item, (item.softwareID, cve) ∈ st) →
      (runItems idx b st inv).1 = st ∧ (runItems idx b st inv).2.1 = [] := by
  induction inv with
  | nil => intro st _; exact ⟨rfl, rfl⟩
  | cons i rest ih =>
    intro st h
    have hi := upsertCVEs_stable i.softwareID b (cvesForItem idx i) st
      (h i (List.mem_cons_self _ _))
    have hrest : ∀ item ∈ rest, ∀ cve ∈ cvesForItem idx item,
        (item.softwareID, cve) ∈ st :=
      fun item hitem => h item (List.mem_cons_of_mem _ hitem)
    simp only [runItems, hi.1]
    have := ih st hrest
    simp [this.1, this.2, hi.2]

/-- Claim C4: reconciliation is idempotent in its recent-results output —
for every feed index, inventory, flag and retention value, a second run
from the store the first run produced reports an empty recent-results
sequence (every upsert finds its row already present). -/
theorem reconcile_idempotent_recent (idx : FeedIndex) (inv : List SoftwareCPE)
    (b : Bool) (ra : Nat) (st : Store) :
    (reconcile idx inv b ra (reconcile idx inv b ra st).store).recent = [] := by
  have hcov : ∀ item ∈ inv, ∀ cve ∈ cvesForItem idx item,
      (item.softwareID, cve) ∈ (reconcile idx inv b ra st).store := by
    intro item hitem cve hcve
    simpa [reconcile] using runItems_covers idx b inv st item cve hitem hcve
  simpa [reconcile] using
    (runItems_stable idx b inv (reconcile idx inv b ra st).store hcov).2

/-- Per-item processing issues no retirement operation. -/
theorem upsertCVEs_ops_no_delete (sid : Nat) (b : Bool) (cves : List String) :
    ∀ st : Store, ((upsertCVEs sid b st cves).2.2).filter DSOp.isDelete = [] := by
  induction cves with
  | nil => intro st; rfl
  | cons c rest ih =>
    intro st
    simp [upsertCVEs, DSOp.isDelete, ih]

/-- The whole inventory pass issues no retirement operation. -/
theorem runItems_ops_no_delete (idx : FeedIndex) (b : Bool) (inv : List SoftwareCPE) :
    ∀ st : Store, ((runItems idx b st inv).2.2).filter DSOp.isDelete = [] := by
  induction inv with
  | nil => intro st; rfl
  | cons i rest ih =>
    intro st
    simp [runItems, List.filter_append, upsertCVEs_ops_no_delete, ih]

/-- Claim C5: every reconcile run invokes the datastore's retirement
operation (source NVD, the given retention value) exactly once, as the
last datastore operation — after all software items — whatever the
`onlyRecent` flag. -/
theorem retirement_called_exactly_once (idx : FeedIndex) (inv : List SoftwareCPE)
    (b : Bool) (ra : Nat) (st : Store) :
    ((reconcile idx inv b ra st).ops.filter DSOp.isDelete)
      = [DSOp.deleteOutOfDate "NVD" ra] ∧
    (reconcile idx inv b ra st).ops.getLast?
      = some (DSOp.deleteOutOfDate "NVD" ra) := by
  constructor
  · simp [reconcile, List.filter_append, runItems_ops_no_delete, DSOp.isDelete]
  · show (DSOp.listCPEs :: ((runItems idx b st inv).2.2
      ++ [DSOp.deleteOutOfDate "NVD" ra])).getLast? = _
    rw [show DSOp.listCPEs :: ((runItems idx b st inv).2.2
        ++ [DSOp.deleteOutOfDate "NVD" ra])
      = (DSOp.listCPEs :: (runItems idx b st inv).2.2)
        ++ [DSOp.deleteOutOfDate "NVD" ra] from rfl]
    exact List.getLast?_concat _

end Nvd

namespace Campaigns

/-- Claim C9: when the context viewer is not the campaign's initiator,
the stream writes only the forbidden error message, never opens the
campaign reader, streams no result, and stops before the loop. -/
theorem stream_forbidden_to_non_initiator
    (env : StreamEnv) (vc : Viewer) (c : Campaign)
    (h1 : env.authzOk = true) (h2 : env.viewer = some vc)
    (h3 : env.campaign = .ok c) (h4 : c.userID ≠ vc.userID) :
    (StreamCampaignResults env).1 = [.writeError forbiddenErrorMessage] ∧
    StreamAct.openReader ∉ (StreamCampaignResults env).1 ∧
    StreamAct.writeResult ∉ (StreamCampaignResults env).1 ∧
    (StreamCampaignResults env).2 = none := by
  have hmain : StreamCampaignResults env
      = ([.writeError forbiddenErrorMessage], none) := by
    simp [StreamCampaignResults, h1, h2, h3, h4]
  rw [hmain]
  refine ⟨rfl, ?_, ?_, rfl⟩ <;> simp

/-- Witness for claim C9 at a concrete environment whose campaign was
initiated by user 2 while the viewer is user 1. -/
theorem stream_forbidden_to_non_initiator_witness :
    (StreamCampaignResults mismatchEnv).1
      = [.writeError forbiddenErrorMessage] ∧
    StreamAct.openReader ∉ (StreamCampaignResults mismatchEnv).1 ∧
    StreamAct.writeResult ∉ (StreamCampaignResults mismatchEnv).1 ∧
    (StreamCampaignResults mismatchEnv).2 = none :=
  stream_forbidden_to_non_initiator mismatchEnv ⟨1⟩ ⟨7, 2, 3⟩ rfl rfl rfl
    (by decide)

/-- The status string a status update leaves behind: finished once the
actual count has reached the online-host count, otherwise unchanged. -/
theorem updateStatus_ok_status (st : StreamState) (mt : Metrics) :
    (updateStatus (.ok mt) st).1.status.status =
      (if mt.onlineHosts ≤ st.status.actualResults then campaignStatusFinished
        else st.status.status) := by
  simp only [updateStatus,
    apply_ite (fun s : StreamState => s.status.status),
    apply_ite (fun s : StreamState => s.status),
    apply_ite (fun s : CampaignStatus => s.status)]
  simp [ge_iff_le]

/-- One loop iteration never moves the status away from finished. -/
theorem stepEvent_preserves_finished (st : StreamState) (e : StreamEvent)
    (h : st.status.status = campaignStatusFinished) :
    (stepEvent st e).1.status.status = campaignStatusFinished := by
  cases e with
  | result => simpa [stepEvent] using h
  | pubsubError m => simpa [stepEvent] using h
  | tick closed m =>
    simp only [stepEvent]
    split
    · exact h
    · cases m with
      | error e => exact h
      | ok mt => rw [updateStatus_ok_status]; simp [h]

/-- The whole remaining loop never moves the status away from finished. -/
theorem runEvents_preserves_finished (evs : List StreamEvent) :
    ∀ st : StreamState, st.status.status = campaignStatusFinished →
      (runEvents st evs).1.status.status = campaignStatusFinished := by
  induction evs with
  | nil => intro st h; exact h
  | cons e rest ih =>
    intro st h
    simp only [runEvents]
    split
    · exact ih _ (stepEvent_preserves_finished st e h)
    · exact stepEvent_preserves_finished st e h

/-- From a pending state, a status update finishes the campaign exactly
when the actual-result count has reached the online-host count. -/
theorem updateStatus_finishes_iff (st : StreamState) (mt : Metrics)
    (h : st.status.status = campaignStatusPending) :
    ((updateStatus (.ok mt) st).1.status.status = campaignStatusFinished ↔
      mt.onlineHosts ≤ st.status.actualResults) := by
  rw [updateStatus_ok_status]
  split
  · simp_all
  · rw [h]
    simp_all [campaignStatusPending, campaignStatusFinished]

/-- Claim C10: within one streaming session the campaign status is
monotone — it starts pending, a status update sets it to finished
exactly when the actual-result count has reached the expected
(online-host) count, and once finished neither a single loop iteration
nor any remaining run of the loop ever sets it back. -/
theorem campaign_status_monotone :
    initState.status.status = campaignStatusPending ∧
    (∀ (st : StreamState) (mt : Metrics),
      st.status.status = campaignStatusPending →
      ((updateStatus (.ok mt) st).1.status.status = campaignStatusFinished ↔
        mt.onlineHosts ≤ st.status.actualResults)) ∧
    (∀ (st : StreamState) (e : StreamEvent),
      st.status.status = campaignStatusFinished →
      (stepEvent st e).1.status.status = campaignStatusFinished) ∧
    (∀ (evs : List StreamEvent) (st : StreamState),
      st.status.status = campaignStatusFinished →
      (runEvents st evs).1.status.status = campaignStatusFinished) :=
  ⟨rfl, updateStatus_finishes_iff, stepEvent_preserves_finished,
    runEvents_preserves_finished⟩

/-- Witness for claim C10: the initial state with zero online hosts
finishes on its first status update. -/
theorem campaign_status_monotone_witness :
    (updateStatus (.ok ⟨0, 0, 0, 0⟩) initState).1.status.status
        = campaignStatusFinished ↔ (0 : Nat) ≤ 0 :=
  campaign_status_monotone.2.1 initState ⟨0, 0, 0, 0⟩ rfl

end Campaigns
